import Mathlib

/-!
Shallow embedding of the `LegendoSync` class from the repository's main module
(the Express server file exporting `\x7b app, LegendoSync, legendoSync \x7d`).

Modelling conventions:
* Byte strings are `List Nat` with values reduced modulo 256 where the code
  operates on bytes.
* JS `Map` objects (`this.sessions`, `this.assetCache`) are association lists;
  `Map.set` replaces in place when the key exists and appends otherwise,
  `Map.get` returns the first (unique) binding.
* Randomness (`crypto.randomBytes`, `crypto.randomUUID`) is threaded explicitly
  as a `Supply` of draws consumed in program order.
* ISO-8601 timestamps (`new Date().toISOString()` later re-parsed with
  `new Date(..).getTime()`) are modelled directly as millisecond counts.
* AES-256-GCM is modelled by an idealized, executable stream cipher plus a tag
  that is injective in the ciphertext for a fixed key and nonce. Crucially, the
  code calls Node's deprecated `crypto.createCipher` / `crypto.createDecipher`,
  which derive the cipher's nonce deterministically from the key material alone
  (EVP_BytesToKey) and never see the caller's `iv`; the model reproduces exactly
  that data flow.
* Asynchronous `await` points have no observable effect in this single-threaded
  model and are elided; the PayPal SDK is an external collaborator whose outcome
  is an `Except` value supplied by the environment.
-/

namespace LegendoSync

/-- Model of the JavaScript values that can reach `executeAI`'s `input`
parameter: undefined, null, booleans, numbers and strings. -/
inductive JsVal where
  | undef : JsVal
  | nul : JsVal
  | boolV : Bool → JsVal
  | num : Int → JsVal
  | str : String → JsVal
  deriving DecidableEq

/-- JavaScript truthiness for the modelled values (`!input` in the source). -/
def truthy : JsVal → Bool
  | .undef => false
  | .nul => false
  | .boolV b => b
  | .num n => n != 0
  | .str s => s != ""

/-- Model of `typeof input === 'string'` for the modelled values. -/
def isString : JsVal → Bool
  | .str _ => true
  | _ => false

/-- Extract the string payload; only used after the `isString` guard. -/
def asString : JsVal → String
  | .str s => s
  | _ => ""

/-- Model of `Map.prototype.get`: first binding of the key in the association list. -/
def mapGet (m : List (String × α)) (k : String) : Option α :=
  (m.find? (fun p => decide (p.1 = k))).map Prod.snd

/-- Model of `Map.prototype.set`: replace the value in place when the key is present,
append a new binding otherwise. -/
def mapSet (m : List (String × α)) (k : String) (v : α) : List (String × α) :=
  if m.any (fun p => decide (p.1 = k)) then
    m.map (fun p => if p.1 = k then (k, v) else p)
  else
    m ++ [(k, v)]

/-- Explicit supply of random draws: `crypto.randomUUID()` results and
`crypto.randomBytes(16)` results, consumed in program order. -/
structure Supply where
  uuids : List String
  ivs : List (List Nat)
  deriving DecidableEq

/-- Consume the next `crypto.randomUUID()` draw. -/
def drawUuid : Supply → String × Supply
  | ⟨[], ivs⟩ => ("", ⟨[], ivs⟩)
  | ⟨u :: us, ivs⟩ => (u, ⟨us, ivs⟩)

/-- Consume the next `crypto.randomBytes(16)` draw. -/
def drawIv : Supply → List Nat × Supply
  | ⟨us, []⟩ => ([], ⟨us, []⟩)
  | ⟨us, iv :: ivs⟩ => (iv, ⟨us, ivs⟩)

/-- Sum of a byte list; mixes key and nonce material into the model keystream. -/
def byteSum (l : List Nat) : Nat := l.foldl (fun a b => a + b) 0

/-- The nonce the cipher actually uses. Node's deprecated `crypto.createCipher`
derives key and IV deterministically from the password via EVP_BytesToKey; it
never sees the `iv` the caller generated. Modelled as a fixed deterministic
function of the key material alone. -/
def derivedNonce (key : List Nat) : List Nat := key.map (fun b => (b + 101) % 256)

/-- Idealized keystream byte at position `i` for the given key and nonce. -/
def keystream (key nonce : List Nat) (i : Nat) : Nat :=
  (byteSum key + 3 * byteSum nonce + 31 * i + 17) % 256

/-- Idealized stream encryption (`cipher.update` and `cipher.final`). -/
def streamEnc (key nonce : List Nat) : Nat → List Nat → List Nat
  | _, [] => []
  | i, b :: bs => (b + keystream key nonce i) % 256 :: streamEnc key nonce (i + 1) bs

/-- Idealized stream decryption, inverse of `streamEnc` on byte values. -/
def streamDec (key nonce : List Nat) : Nat → List Nat → List Nat
  | _, [] => []
  | i, c :: cs => (c + (256 - keystream key nonce i)) % 256 :: streamDec key nonce (i + 1) cs

/-- Key- and nonce-dependent shift used by the model authentication tag. -/
def macShift (key nonce : List Nat) : Nat := (2 * byteSum key + byteSum nonce + 7) % 256

/-- Model of `cipher.getAuthTag()`: for a fixed key and nonce the tag is an
injective function of the ciphertext, which idealizes GCM tamper detection. -/
def macTag (key nonce ct : List Nat) : List Nat :=
  ct.map (fun b => (b + macShift key nonce) % 256)

/-- The object returned by `LegendoSync.encrypt`: hex-encoded ciphertext, the
(unused by the cipher) random iv, and the authentication tag. -/
structure EncryptedData where
  encrypted : List Nat
  iv : List Nat
  authTag : List Nat
  deriving DecidableEq

/-- Model of `LegendoSync.encrypt`: draws `iv = crypto.randomBytes(16)`, then builds the
cipher with `crypto.createCipher('aes-256-gcm', key)` — which derives its nonce
from the key and ignores `iv` — encrypts, and returns the triple. The random
draw is passed explicitly as `ivDraw`. -/
def encrypt (ivDraw : List Nat) (key : List Nat) (text : List Nat) : EncryptedData :=
  let iv := ivDraw
  let nonce := derivedNonce key
  let encrypted := streamEnc key nonce 0 text
  let authTag := macTag key nonce encrypted
  { encrypted := encrypted, iv := iv, authTag := authTag }

/-- Model of `LegendoSync.decrypt`: builds `crypto.createDecipher('aes-256-gcm', key)`
(again deriving the nonce from the key; the stored `iv` field is never read),
sets the auth tag, and decrypts; `decipher.final` throws on tag mismatch, which
is modelled as `none`. -/
def decrypt (key : List Nat) (d : EncryptedData) : Option (List Nat) :=
  let nonce := derivedNonce key
  if macTag key nonce d.encrypted = d.authTag then
    some (streamDec key nonce 0 d.encrypted)
  else
    none

/-- Flip bit `j` of byte `i` of a byte list (tampering model). -/
def flipBit (bs : List Nat) (i j : Nat) : List Nat :=
  bs.set i ((bs.getD i 0) ^^^ 2 ^ j)

/-- Modelled: SHA-256 digest as an injective placeholder over the input bytes;
no claim depends on any cryptographic property of the hash. -/
def sha256Digest (bs : List Nat) : List Nat := bs.length :: bs.map (fun b => b % 256)

/-- Presence flags of `options.paypalData.createPayment` /
`options.paypalData.executePayment`; their contents only flow to the external
PayPal SDK. -/
structure PayPalData where
  createPayment : Bool := false
  executePayment : Bool := false
  deriving DecidableEq

/-- The `options` object consumed by `executeAI` and `processCommand`; the
fields the code reads are `sessionId`, `assets` (serialized asset payloads as
byte lists) and `paypalData`. -/
structure Options where
  sessionId : Option String := none
  assets : Option (List (List Nat)) := none
  paypalData : Option PayPalData := none
  deriving DecidableEq

/-- One element of `syncResults` in `syncAssets`. -/
structure SyncItem where
  assetId : String
  status : String
  hash : List Nat
  deriving DecidableEq

/-- The summary object returned by `syncAssets`. -/
structure SyncSummary where
  totalAssets : Nat
  syncedAssets : Nat
  failedAssets : Nat
  results : List SyncItem
  deriving DecidableEq

/-- Result values produced by the `processCommand` dispatch table. -/
inductive CmdResult where
  | halo : CmdResult
  | syncRes : SyncSummary → CmdResult
  | paypalRes : String → CmdResult
  | vaultStatus : Nat → Nat → CmdResult
  | health : Nat → CmdResult
  | unknown : String → CmdResult
  deriving DecidableEq

/-- The record `executeAI` places in `this.sessions`: the plaintext input, the
command result, the timestamp and the options object. -/
structure Session where
  input : String
  result : CmdResult
  timestamp : Nat
  options : Options
  deriving DecidableEq

/-- The record `syncAssets` places in `this.assetCache`: the spread of the
`encrypt` output plus a timestamp and the SHA-256 hash of the plaintext. -/
structure AssetEntry where
  encrypted : List Nat
  iv : List Nat
  authTag : List Nat
  timestamp : Nat
  originalHash : List Nat
  deriving DecidableEq

/-- The mutable state of a `LegendoSync` instance: the two maps. -/
structure SyncState where
  sessions : List (String × Session)
  assetCache : List (String × AssetEntry)
  deriving DecidableEq

/-- A thrown JS `Error`: its `message` and optional `code` property. -/
structure JsError where
  message : String
  code : Option String
  deriving DecidableEq

/-- The object `executeAI` resolves with, covering both its success shape and
its catch-branch error shape (absent fields are `none`). -/
structure ExecResult where
  sessionId : String
  timestamp : Nat
  status : String
  result : Option CmdResult
  error : Option String
  code : Option String
  inputLength : Option Nat
  deriving DecidableEq

/-- Ambient environment of a call: the clock, the instance encryption key, and
the outcome the external PayPal SDK would deliver. -/
structure Env where
  nowMs : Nat
  key : List Nat
  paypal : Except JsError String

/-- Uppercase each character (`command.toUpperCase()`). -/
def upcase (s : String) : String := String.mk (s.data.map Char.toUpper)

/-- Strip leading and trailing whitespace (`.trim()`). -/
def trimSpaces (s : String) : String :=
  String.mk (((s.data.dropWhile Char.isWhitespace).reverse.dropWhile Char.isWhitespace).reverse)

/-- Model of `command.toUpperCase().trim()` from `processCommand`. -/
def normalizeCmd (s : String) : String := trimSpaces (upcase s)

/-- Loop body of `LegendoSync.syncAssets`: per asset, encrypt the serialized
payload (consuming a random iv draw), draw a fresh UUID, store the spread of
the encrypted triple with timestamp and hash in the cache, and record a
`synced` result item. -/
def syncAssetsAux (key : List Nat) (now : Nat) :
    List (List Nat) → Supply → List (String × AssetEntry) →
    List SyncItem × List (String × AssetEntry) × Supply
  | [], sup, cache => ([], cache, sup)
  | asset :: rest, sup, cache =>
    let p := drawIv sup
    let e := encrypt p.1 key asset
    let q := drawUuid p.2
    let cache1 := mapSet cache q.1
      { encrypted := e.encrypted, iv := e.iv, authTag := e.authTag,
        timestamp := now, originalHash := sha256Digest asset }
    let r := syncAssetsAux key now rest q.2 cache1
    ({ assetId := q.1, status := "synced", hash := sha256Digest asset } :: r.1, r.2.1, r.2.2)

/-- Model of `LegendoSync.syncAssets`: run the loop and assemble the summary counts the
way the source does (filtering the result list by status). -/
def syncAssets (key : List Nat) (now : Nat) (assets : List (List Nat)) (sup : Supply)
    (cache : List (String × AssetEntry)) :
    SyncSummary × List (String × AssetEntry) × Supply :=
  let r := syncAssetsAux key now assets sup cache
  ({ totalAssets := assets.length,
     syncedAssets := (r.1.filter (fun it => decide (it.status = "synced"))).length,
     failedAssets := (r.1.filter (fun it => decide (it.status = "failed"))).length,
     results := r.1 }, r.2.1, r.2.2)

/-- Model of `LegendoSync.injectPayPal`: dispatch on which request is present; the SDK
outcome comes from the environment; with neither request present, return the
static activation object. -/
def injectPayPal (env : Env) (d : PayPalData) : Except JsError CmdResult :=
  if d.createPayment then
    match env.paypal with
    | .ok s => .ok (.paypalRes s)
    | .error e => .error e
  else if d.executePayment then
    match env.paypal with
    | .ok s => .ok (.paypalRes s)
    | .error e => .error e
  else
    .ok (.paypalRes "injected")

/-- Model of `LegendoSync.processCommand`: normalize the command and dispatch through
the command table; unknown commands produce the default response. -/
def processCommand (env : Env) (command : String) (options : Options) (st : SyncState)
    (sup : Supply) : Except JsError CmdResult × SyncState × Supply :=
  if normalizeCmd command = "HALO BA LEGENDO" then
    (.ok .halo, st, sup)
  else if normalizeCmd command = "SYNC_ASSETS" then
    let r := syncAssets env.key env.nowMs (options.assets.getD []) sup st.assetCache
    (.ok (.syncRes r.1), { st with assetCache := r.2.1 }, r.2.2)
  else if normalizeCmd command = "PAYPAL_INJECT" then
    (injectPayPal env (options.paypalData.getD {}), st, sup)
  else if normalizeCmd command = "VAULT_STATUS" then
    (.ok (.vaultStatus st.sessions.length st.assetCache.length), st, sup)
  else if normalizeCmd command = "HEALTH_CHECK" then
    (.ok (.health env.nowMs), st, sup)
  else
    (.ok (.unknown ("Command processed: " ++ command)), st, sup)

/-- The guard `!input || typeof input !== 'string'` (negated). -/
def validInput (v : JsVal) : Bool := truthy v && isString v

/-- Model of `options.sessionId || crypto.randomUUID()`: a supplied non-empty (truthy)
session id is used verbatim; otherwise a fresh UUID is drawn. -/
def sessionIdDraw (options : Options) (sup : Supply) : String × Supply :=
  match options.sessionId with
  | some s => if s = "" then drawUuid sup else (s, sup)
  | none => drawUuid sup

/-- Model of `LegendoSync.executeAI`: choose the session id (`options.sessionId ||
crypto.randomUUID()`), validate the input, run the command, store the session
record on success, and map any thrown error to the catch-branch result shape
with `code` defaulting to `EXECUTION_ERROR`. -/
def executeAI (env : Env) (sup : Supply) (input : JsVal) (options : Options)
    (st : SyncState) : ExecResult × SyncState × Supply :=
  let sidDraw := sessionIdDraw options sup
  let sessionId := sidDraw.1
  let sup1 := sidDraw.2
  let timestamp := env.nowMs
  if validInput input then
    match processCommand env (asString input) options st sup1 with
    | (.ok r, st1, sup2) =>
      let sess : Session :=
        { input := asString input, result := r, timestamp := timestamp, options := options }
      ({ sessionId := sessionId, timestamp := timestamp, status := "success",
         result := some r, error := none, code := none,
         inputLength := some (asString input).length },
       { st1 with sessions := mapSet st1.sessions sessionId sess }, sup2)
    | (.error e, st1, sup2) =>
      ({ sessionId := sessionId, timestamp := timestamp, status := "error",
         result := none, error := some e.message, code := some (e.code.getD "EXECUTION_ERROR"),
         inputLength := none }, st1, sup2)
  else
    ({ sessionId := sessionId, timestamp := timestamp, status := "error",
       result := none, error := some "Invalid input provided",
       code := some "EXECUTION_ERROR", inputLength := none }, st, sup1)

/-- Model of `LegendoSync.getSession`: map lookup, `null` modelled as `none`. -/
def getSession (st : SyncState) (sessionId : String) : Option Session :=
  mapGet st.sessions sessionId

/-- Default `maxAge` of `cleanup` (1 hour in milliseconds). -/
def defaultMaxAge : Nat := 3600000

/-- Interval of the `setInterval` that runs `cleanup` (30 minutes in ms). -/
def cleanupIntervalMs : Nat := 1800000

/-- Model of `LegendoSync.cleanup`: iterate both maps and delete every entry with
`now - timestamp > maxAge`; over a unique-key map, deleting during iteration
is the filter below. -/
def cleanup (now maxAge : Nat) (st : SyncState) : SyncState :=
  { sessions := st.sessions.filter (fun p => !decide (now - p.2.timestamp > maxAge)),
    assetCache := st.assetCache.filter (fun p => !decide (now - p.2.timestamp > maxAge)) }

/-- Model of `cleanup()` as invoked by the interval timer, with the default `maxAge`. -/
def cleanupDefault (now : Nat) (st : SyncState) : SyncState := cleanup now defaultMaxAge st

end LegendoSync

namespace LegendoSync

/-! ### Lemmas about the map model -/

theorem find_replace_of_any {α : Type} (k : String) (v : α) (m : List (String × α))
    (h : m.any (fun p => decide (p.1 = k)) = true) :
    (m.map (fun p => if p.1 = k then (k, v) else p)).find? (fun p => decide (p.1 = k)) =
      some (k, v) := by
  induction m with
  | nil => simp at h
  | cons p m ih =>
    by_cases hp : p.1 = k
    · simp [List.find?, hp]
    · have hm : m.any (fun q => decide (q.1 = k)) = true := by
        simpa [hp] using h
      simpa [List.find?, hp] using ih hm

theorem find_append_single_of_not_any {α : Type} (k : String) (v : α)
    (m : List (String × α)) (h : m.any (fun p => decide (p.1 = k)) = false) :
    (m ++ [(k, v)]).find? (fun p => decide (p.1 = k)) = some (k, v) := by
  induction m with
  | nil => simp [List.find?]
  | cons p m ih =>
    have hp : ¬ p.1 = k := by
      intro hpk
      simp [hpk] at h
    have hm : m.any (fun q => decide (q.1 = k)) = false := by
      simpa [hp] using h
    simpa [List.find?, hp] using ih hm

theorem mapGet_mapSet_self {α : Type} (m : List (String × α)) (k : String) (v : α) :
    mapGet (mapSet m k v) k = some v := by
  unfold mapGet mapSet
  by_cases h : m.any (fun p => decide (p.1 = k)) = true
  · rw [if_pos h, find_replace_of_any k v m h]
    rfl
  · have hf : m.any (fun p => decide (p.1 = k)) = false := by
      rwa [Bool.not_eq_true] at h
    rw [if_neg h, find_append_single_of_not_any k v m hf]
    rfl

theorem length_mapSet_of_any {α : Type} (m : List (String × α)) (k : String) (v : α)
    (h : m.any (fun p => decide (p.1 = k)) = true) :
    (mapSet m k v).length = m.length := by
  unfold mapSet
  rw [if_pos h, List.length_map]

theorem mem_mapSet {α : Type} {m : List (String × α)} {k : String} {v : α} {x : String × α}
    (h : x ∈ mapSet m k v) : x ∈ m ∨ x = (k, v) := by
  unfold mapSet at h
  by_cases ha : m.any (fun p => decide (p.1 = k)) = true
  · rw [if_pos ha] at h
    obtain ⟨p, hp, hfx⟩ := List.mem_map.mp h
    by_cases hpk : p.1 = k
    · right
      rw [if_pos hpk] at hfx
      exact hfx.symm
    · left
      rw [if_neg hpk] at hfx
      exact hfx ▸ hp
  · rw [if_neg ha] at h
    rcases List.mem_append.mp h with h1 | h2
    · left
      exact h1
    · right
      simpa using h2

/-! ### Lemmas about the crypto model -/

theorem keystream_lt (key nonce : List Nat) (i : Nat) : keystream key nonce i < 256 := by
  unfold keystream
  omega

theorem streamDec_streamEnc (key nonce : List Nat) :
    ∀ (pt : List Nat) (i : Nat), (∀ b ∈ pt, b < 256) →
      streamDec key nonce i (streamEnc key nonce i pt) = pt := by
  intro pt
  induction pt with
  | nil =>
    intro i _
    rfl
  | cons b bs ih =>
    intro i h
    have hb : b < 256 := h b (List.mem_cons_self b bs)
    have hk : keystream key nonce i < 256 := keystream_lt key nonce i
    simp only [streamEnc, streamDec, List.cons.injEq]
    exact ⟨by omega, ih (i + 1) (fun x hx => h x (List.mem_cons_of_mem _ hx))⟩

theorem decrypt_encrypt (ivDraw key pt : List Nat) (h : ∀ b ∈ pt, b < 256) :
    decrypt key (encrypt ivDraw key pt) = some pt := by
  simp only [decrypt, encrypt]
  rw [if_pos trivial]
  exact congrArg some (streamDec_streamEnc key (derivedNonce key) pt 0 h)

end LegendoSync

namespace LegendoSync

/-! ### Characterization lemmas for the facade operations -/

theorem sessionIdDraw_of_some {options : Options} {i : String} (sup : Supply)
    (ho : options.sessionId = some i) (h : i ≠ "") :
    sessionIdDraw options sup = (i, sup) := by
  unfold sessionIdDraw
  rw [ho]
  simp [h]

theorem sessionIdDraw_of_none {options : Options} (sup : Supply)
    (ho : options.sessionId = none) :
    sessionIdDraw options sup = drawUuid sup := by
  unfold sessionIdDraw
  rw [ho]

theorem executeAI_invalid (env : Env) (sup : Supply) (input : JsVal) (options : Options)
    (st : SyncState) (hv : validInput input = false) :
    executeAI env sup input options st =
      ({ sessionId := (sessionIdDraw options sup).1, timestamp := env.nowMs,
         status := "error", result := none, error := some "Invalid input provided",
         code := some "EXECUTION_ERROR", inputLength := none }, st,
       (sessionIdDraw options sup).2) := by
  simp only [executeAI, hv, Bool.false_eq_true, if_false]

theorem executeAI_ok (env : Env) (sup : Supply) (input : JsVal) (options : Options)
    (st : SyncState) (r : CmdResult) (st1 : SyncState) (sup2 : Supply)
    (hv : validInput input = true)
    (hpc : processCommand env (asString input) options st (sessionIdDraw options sup).2 =
      (.ok r, st1, sup2)) :
    executeAI env sup input options st =
      ({ sessionId := (sessionIdDraw options sup).1, timestamp := env.nowMs,
         status := "success", result := some r, error := none, code := none,
         inputLength := some (asString input).length },
       { st1 with sessions := (mapSet st1.sessions (sessionIdDraw options sup).1
           { input := asString input, result := r, timestamp := env.nowMs,
             options := options }) }, sup2) := by
  simp only [executeAI, hv, if_true, hpc]

theorem executeAI_err (env : Env) (sup : Supply) (input : JsVal) (options : Options)
    (st : SyncState) (e : JsError) (st1 : SyncState) (sup2 : Supply)
    (hv : validInput input = true)
    (hpc : processCommand env (asString input) options st (sessionIdDraw options sup).2 =
      (.error e, st1, sup2)) :
    executeAI env sup input options st =
      ({ sessionId := (sessionIdDraw options sup).1, timestamp := env.nowMs,
         status := "error", result := none, error := some e.message,
         code := some (e.code.getD "EXECUTION_ERROR"), inputLength := none },
       st1, sup2) := by
  simp only [executeAI, hv, if_true, hpc]

theorem executeAI_sessionId (env : Env) (sup : Supply) (input : JsVal) (options : Options)
    (st : SyncState) :
    (executeAI env sup input options st).1.sessionId = (sessionIdDraw options sup).1 := by
  cases hv : validInput input with
  | false => rw [executeAI_invalid env sup input options st hv]
  | true =>
    rcases hpc : processCommand env (asString input) options st (sessionIdDraw options sup).2
      with ⟨res, st1, sup2⟩
    cases res with
    | ok r => rw [executeAI_ok env sup input options st r st1 sup2 hv hpc]
    | error e => rw [executeAI_err env sup input options st e st1 sup2 hv hpc]

theorem processCommand_sessions (env : Env) (command : String) (options : Options)
    (st : SyncState) (sup : Supply) :
    (processCommand env command options st sup).2.1.sessions = st.sessions := by
  unfold processCommand
  repeat' split
  all_goals rfl

theorem processCommand_vault (env : Env) (options : Options) (st : SyncState)
    (sup : Supply) :
    processCommand env "VAULT_STATUS" options st sup =
      (.ok (.vaultStatus st.sessions.length st.assetCache.length), st, sup) := rfl

end LegendoSync

namespace LegendoSync

/-! ### Lemmas about the syncAssets loop -/

theorem syncAssetsAux_ids (key : List Nat) (now : Nat) :
    ∀ (assets : List (List Nat)) (sup : Supply) (cache : List (String × AssetEntry)),
      assets.length ≤ sup.uuids.length →
      (syncAssetsAux key now assets sup cache).1.map SyncItem.assetId =
        sup.uuids.take assets.length := by
  intro assets
  induction assets with
  | nil =>
    intro sup cache _
    simp [syncAssetsAux]
  | cons a rest ih =>
    intro sup cache h
    rcases sup with ⟨us, ivs⟩
    cases us with
    | nil => simp at h
    | cons u us =>
      cases ivs with
      | nil =>
        simp only [syncAssetsAux, drawIv, drawUuid, List.map_cons]
        rw [ih ⟨us, []⟩ _ (by simpa using h)]
        simp
      | cons iv ivs =>
        simp only [syncAssetsAux, drawIv, drawUuid, List.map_cons]
        rw [ih ⟨us, ivs⟩ _ (by simpa using h)]
        simp

theorem syncAssetsAux_cache_mem (key : List Nat) (now : Nat) :
    ∀ (assets : List (List Nat)) (sup : Supply) (cache : List (String × AssetEntry))
      (i : String) (e : AssetEntry),
      (i, e) ∈ (syncAssetsAux key now assets sup cache).2.1 →
      (i, e) ∈ cache ∨
        ∃ a ∈ assets, ∃ ivd,
          e = { encrypted := (encrypt ivd key a).encrypted, iv := (encrypt ivd key a).iv,
                authTag := (encrypt ivd key a).authTag, timestamp := now,
                originalHash := sha256Digest a } := by
  intro assets
  induction assets with
  | nil =>
    intro sup cache i e h
    exact Or.inl h
  | cons a rest ih =>
    intro sup cache i e h
    simp only [syncAssetsAux] at h
    rcases ih _ _ i e h with h1 | h2
    · rcases mem_mapSet h1 with hc | he
      · exact Or.inl hc
      · right
        rw [Prod.mk.injEq] at he
        exact ⟨a, List.mem_cons_self a rest, (drawIv sup).1, he.2⟩
    · right
      obtain ⟨b, hb, ivd, hbe⟩ := h2
      exact ⟨b, List.mem_cons_of_mem a hb, ivd, hbe⟩

end LegendoSync

namespace LegendoSync

/-! ### Claim theorems -/

/-- C2: REFUTED — code bug. A fresh random draw is generated on every call to
`encrypt`, but the cipher never uses it: `createCipher` derives its nonce from
the key alone, so ciphertext and auth tag are identical across calls with the
same key and plaintext regardless of the random draw; the draw only lands in
the stored (and never re-read) `iv` field. Hence the same key does encrypt
equal payloads to equal ciphertexts across two runs with distinct draws,
violating the fresh-nonce requirement. -/
theorem claim_C2_nonce_unused (key pt iv1 iv2 : List Nat) :
    (encrypt iv1 key pt).encrypted = (encrypt iv2 key pt).encrypted ∧
    (encrypt iv1 key pt).authTag = (encrypt iv2 key pt).authTag ∧
    (encrypt iv1 key pt).iv = iv1 :=
  ⟨rfl, rfl, rfl⟩

/-- C2, evaluated at a concrete failing input: two encryptions of the same
plaintext under the same key with distinct random draws yield the same
ciphertext. -/
theorem claim_C2_concrete :
    encrypt [0, 0] [1, 2, 3] [10, 20] ≠ encrypt [255, 255] [1, 2, 3] [10, 20] ∧
    (encrypt [0, 0] [1, 2, 3] [10, 20]).encrypted =
      (encrypt [255, 255] [1, 2, 3] [10, 20]).encrypted := by
  constructor <;> decide

/-- C3: CONFIRMED. The crypto round-trip holds for every byte payload,
including the empty one: decrypting the triple returned by `encrypt` yields
the original plaintext (both sides derive the same key-dependent nonce).
Lifted to the facade: whenever `executeAI` succeeds in storing payload `P`,
looking the returned session id up returns the stored record whose payload is
exactly `P`. -/
theorem claim_C3_round_trip :
    (∀ (ivDraw key pt : List Nat), (∀ b ∈ pt, b < 256) →
        decrypt key (encrypt ivDraw key pt) = some pt) ∧
    (∀ (env : Env) (sup : Supply) (s : String) (options : Options) (st : SyncState),
        (executeAI env sup (.str s) options st).1.status = "success" →
        (getSession (executeAI env sup (.str s) options st).2.1
            (executeAI env sup (.str s) options st).1.sessionId).map Session.input =
          some s) := by
  constructor
  · exact decrypt_encrypt
  · intro env sup s options st hs
    cases hv : validInput (.str s) with
    | false =>
      rw [executeAI_invalid env sup (.str s) options st hv] at hs
      simp at hs
    | true =>
      rcases hpc : processCommand env (asString (.str s)) options st
          (sessionIdDraw options sup).2 with ⟨res, st1, sup2⟩
      cases res with
      | ok r =>
        rw [executeAI_ok env sup (.str s) options st r st1 sup2 hv hpc]
        simp only [getSession]
        rw [mapGet_mapSet_self]
        rfl
      | error e =>
        rw [executeAI_err env sup (.str s) options st e st1 sup2 hv hpc] at hs
        simp at hs

/-- C3 witness: the round-trip at the empty payload and at a concrete facade
run. -/
theorem claim_C3_witness :
    decrypt [1, 2] (encrypt [9] [1, 2] []) = some [] ∧
    (getSession (executeAI ⟨4, [1], Except.ok "r"⟩ ⟨["u1"], [[9]]⟩ (.str "ping") {}
          ⟨[], []⟩).2.1
        (executeAI ⟨4, [1], Except.ok "r"⟩ ⟨["u1"], [[9]]⟩ (.str "ping") {}
          ⟨[], []⟩).1.sessionId).map Session.input = some "ping" :=
  ⟨claim_C3_round_trip.1 [9] [1, 2] [] (by decide),
   claim_C3_round_trip.2 ⟨4, [1], Except.ok "r"⟩ ⟨["u1"], [[9]]⟩ "ping" {} ⟨[], []⟩
     (by decide)⟩

/-- C4: REFUTED — code bug. Flipping a bit of the stored nonce/iv field is NOT
detected: `decrypt` (built with `createDecipher`) never reads the `iv` field,
so the tampered record still decrypts successfully to the original plaintext
instead of failing authentication. Shown at a concrete stored triple. -/
theorem claim_C4_iv_tamper_undetected :
    flipBit (encrypt [4] [1] [10]).iv 0 0 ≠ (encrypt [4] [1] [10]).iv ∧
    decrypt [1]
        { encrypt [4] [1] [10] with iv := flipBit (encrypt [4] [1] [10]).iv 0 0 } =
      some [10] := by
  constructor <;> decide

/-- Sanity check that the tag verification in the decrypt model is not
vacuous: tampering with the ciphertext or with the auth tag is detected. -/
theorem decrypt_detects_payload_tamper_example :
    decrypt [1]
        { encrypt [4] [1] [10] with
            encrypted := flipBit (encrypt [4] [1] [10]).encrypted 0 0 } = none ∧
    decrypt [1]
        { encrypt [4] [1] [10] with
            authTag := flipBit (encrypt [4] [1] [10]).authTag 0 0 } = none := by
  constructor <;> decide

end LegendoSync

namespace LegendoSync

/-- C5: CONFIRMED. A cleanup run at time `now` keeps exactly the entries of
both maps whose age `now - createdAt` does not exceed `maxAge` and deletes
exactly those whose age exceeds it (strictly), leaving every younger entry
unchanged; the default `maxAge` is 3600000 ms (1 hour) and the sweep interval
constant is 1800000 ms (30 minutes). -/
theorem claim_C5_sweep (now maxAge : Nat) (st : SyncState) (i : String) (s : Session)
    (a : AssetEntry) :
    ((i, s) ∈ (cleanup now maxAge st).sessions ↔
      (i, s) ∈ st.sessions ∧ ¬ now - s.timestamp > maxAge) ∧
    ((i, a) ∈ (cleanup now maxAge st).assetCache ↔
      (i, a) ∈ st.assetCache ∧ ¬ now - a.timestamp > maxAge) ∧
    cleanupDefault now st = cleanup now 3600000 st ∧
    defaultMaxAge = 3600000 ∧ cleanupIntervalMs = 1800000 := by
  refine ⟨?_, ?_, rfl, rfl, rfl⟩
  · simp [cleanup, List.mem_filter]
  · simp [cleanup, List.mem_filter]

/-- C8: CONFIRMED. The sweep is idempotent: running cleanup twice at the same
time with the same `maxAge` and no interleaving insertions leaves the state of
the first run unchanged (and the model sweep is a total function, so the
second run cannot error). -/
theorem claim_C8_sweep_idempotent (now maxAge : Nat) (st : SyncState) :
    cleanup now maxAge (cleanup now maxAge st) = cleanup now maxAge st := by
  simp [cleanup, List.filter_filter]

/-- C6: REFUTED. Storing under an already-existing identifier is not an
InvariantViolation: at a state whose session map already binds "A", a call to
executeAI with caller-supplied sessionId "A" returns status success and
silently replaces the stored entry instead of aborting. -/
theorem claim_C6_counterexample :
    (executeAI ⟨7, [1], Except.ok "r"⟩ ⟨[], []⟩ (.str "VAULT_STATUS")
        { sessionId := some "A" }
        ⟨[("A", { input := "old", result := .halo, timestamp := 0, options := {} })],
         []⟩).1.status = "success" ∧
    (executeAI ⟨7, [1], Except.ok "r"⟩ ⟨[], []⟩ (.str "VAULT_STATUS")
        { sessionId := some "A" }
        ⟨[("A", { input := "old", result := .halo, timestamp := 0, options := {} })],
         []⟩).2.1.sessions =
      [("A", { input := "VAULT_STATUS", result := .vaultStatus 1 0, timestamp := 7,
               options := { sessionId := some "A" } })] := by
  constructor <;> decide

/-- C6 (amended): when a store operation's identifier already exists in the
session map, the operation does not abort: it reports success, the existing
entry is silently overwritten with the new record via Map.set, and the map
size is unchanged. -/
theorem claim_C6_amended (env : Env) (sup : Supply) (st : SyncState) (i : String)
    (h1 : st.sessions.any (fun p => decide (p.1 = i)) = true) (h2 : i ≠ "") :
    (executeAI env sup (.str "VAULT_STATUS") { sessionId := some i } st).1.status =
      "success" ∧
    mapGet (executeAI env sup (.str "VAULT_STATUS")
        { sessionId := some i } st).2.1.sessions i =
      some { input := "VAULT_STATUS",
             result := .vaultStatus st.sessions.length st.assetCache.length,
             timestamp := env.nowMs, options := { sessionId := some i } } ∧
    (executeAI env sup (.str "VAULT_STATUS")
        { sessionId := some i } st).2.1.sessions.length = st.sessions.length := by
  have hv : validInput (.str "VAULT_STATUS") = true := by decide
  have hd : sessionIdDraw { sessionId := some i } sup = (i, sup) :=
    sessionIdDraw_of_some sup rfl h2
  have hpc : processCommand env (asString (.str "VAULT_STATUS")) { sessionId := some i }
      st (sessionIdDraw { sessionId := some i } sup).2 =
      (.ok (.vaultStatus st.sessions.length st.assetCache.length), st,
        (sessionIdDraw { sessionId := some i } sup).2) :=
    processCommand_vault env { sessionId := some i } st _
  rw [executeAI_ok env sup (.str "VAULT_STATUS") { sessionId := some i } st
    (.vaultStatus st.sessions.length st.assetCache.length) st
    (sessionIdDraw { sessionId := some i } sup).2 hv hpc, hd]
  exact ⟨rfl,
    mapGet_mapSet_self st.sessions i
      { input := "VAULT_STATUS",
        result := .vaultStatus st.sessions.length st.assetCache.length,
        timestamp := env.nowMs, options := { sessionId := some i } },
    length_mapSet_of_any st.sessions i _ h1⟩

/-- C6 witness: the amended statement instantiated at a concrete state with a
pre-existing binding for "A". -/
theorem claim_C6_witness :
    (executeAI ⟨7, [1], Except.ok "r"⟩ ⟨[], []⟩ (.str "VAULT_STATUS")
        { sessionId := some "A" }
        ⟨[("A", { input := "old", result := .halo, timestamp := 0, options := {} })],
         []⟩).1.status = "success" ∧
    mapGet (executeAI ⟨7, [1], Except.ok "r"⟩ ⟨[], []⟩ (.str "VAULT_STATUS")
        { sessionId := some "A" }
        ⟨[("A", { input := "old", result := .halo, timestamp := 0, options := {} })],
         []⟩).2.1.sessions "A" =
      some { input := "VAULT_STATUS", result := .vaultStatus 1 0, timestamp := 7,
             options := { sessionId := some "A" } } ∧
    (executeAI ⟨7, [1], Except.ok "r"⟩ ⟨[], []⟩ (.str "VAULT_STATUS")
        { sessionId := some "A" }
        ⟨[("A", { input := "old", result := .halo, timestamp := 0, options := {} })],
         []⟩).2.1.sessions.length =
      [("A", ({ input := "old", result := .halo, timestamp := 0,
                options := {} } : Session))].length :=
  claim_C6_amended ⟨7, [1], Except.ok "r"⟩ ⟨[], []⟩
    ⟨[("A", { input := "old", result := .halo, timestamp := 0, options := {} })], []⟩
    "A" (by decide) (by decide)

end LegendoSync

namespace LegendoSync

/-- C7: REFUTED. Returned identifiers are not always freshly generated UUIDs:
`executeAI` uses `options.sessionId || crypto.randomUUID()`, so two sequential
store operations with the same caller-supplied sessionId both succeed and
both return the identifier "A" — the N returned identifiers need not be
distinct. -/
theorem claim_C7_counterexample :
    (executeAI ⟨0, [1], Except.ok "r"⟩ ⟨["u1", "u2"], [[5]]⟩ (.str "HEALTH_CHECK")
        { sessionId := some "A" } ⟨[], []⟩).1.sessionId = "A" ∧
    (executeAI ⟨0, [1], Except.ok "r"⟩ ⟨["u1", "u2"], [[5]]⟩ (.str "HEALTH_CHECK")
        { sessionId := some "A" } ⟨[], []⟩).1.status = "success" ∧
    (executeAI ⟨0, [1], Except.ok "r"⟩
        (executeAI ⟨0, [1], Except.ok "r"⟩ ⟨["u1", "u2"], [[5]]⟩ (.str "HEALTH_CHECK")
          { sessionId := some "A" } ⟨[], []⟩).2.2
        (.str "HEALTH_CHECK") { sessionId := some "A" }
        (executeAI ⟨0, [1], Except.ok "r"⟩ ⟨["u1", "u2"], [[5]]⟩ (.str "HEALTH_CHECK")
          { sessionId := some "A" } ⟨[], []⟩).2.1).1.sessionId = "A" ∧
    (executeAI ⟨0, [1], Except.ok "r"⟩
        (executeAI ⟨0, [1], Except.ok "r"⟩ ⟨["u1", "u2"], [[5]]⟩ (.str "HEALTH_CHECK")
          { sessionId := some "A" } ⟨[], []⟩).2.2
        (.str "HEALTH_CHECK") { sessionId := some "A" }
        (executeAI ⟨0, [1], Except.ok "r"⟩ ⟨["u1", "u2"], [[5]]⟩ (.str "HEALTH_CHECK")
          { sessionId := some "A" } ⟨[], []⟩).2.1).1.status = "success" := by
  refine ⟨?_, ?_, ?_, ?_⟩ <;> decide

/-- C7 (amended): asset identifiers produced by syncAssets are exactly the
fresh UUID draws consumed in order — hence pairwise distinct whenever the
draws are distinct — and executeAI returns the fresh UUID draw when the
caller supplies no sessionId; when a sessionId is supplied it is returned
verbatim, so identifiers across store operations need not be distinct. -/
theorem claim_C7_amended :
    (∀ (key : List Nat) (now : Nat) (assets : List (List Nat)) (sup : Supply)
        (cache : List (String × AssetEntry)),
      assets.length ≤ sup.uuids.length →
        (syncAssets key now assets sup cache).1.results.map SyncItem.assetId =
          sup.uuids.take assets.length ∧
        (sup.uuids.Nodup →
          ((syncAssets key now assets sup cache).1.results.map SyncItem.assetId).Nodup)) ∧
    (∀ (env : Env) (sup : Supply) (input : JsVal) (options : Options) (st : SyncState),
      options.sessionId = none →
        (executeAI env sup input options st).1.sessionId = (drawUuid sup).1) := by
  constructor
  · intro key now assets sup cache h
    have hids : (syncAssets key now assets sup cache).1.results.map SyncItem.assetId =
        sup.uuids.take assets.length := syncAssetsAux_ids key now assets sup cache h
    refine ⟨hids, fun hnd => ?_⟩
    rw [hids]
    exact hnd.sublist (List.take_sublist _ _)
  · intro env sup input options st ho
    rw [executeAI_sessionId env sup input options st, sessionIdDraw_of_none sup ho]

/-- C7 witness: distinct asset ids for a concrete two-asset sync with distinct
draws, and the fresh-UUID return for a concrete call without sessionId. -/
theorem claim_C7_witness :
    ((syncAssets [1] 5 [[2], [3]] ⟨["u1", "u2"], [[4], [6]]⟩ []).1.results.map
        SyncItem.assetId).Nodup ∧
    (executeAI ⟨0, [1], Except.ok "r"⟩ ⟨["u9"], [[5]]⟩ (.str "HEALTH_CHECK") {}
        ⟨[], []⟩).1.sessionId = (drawUuid ⟨["u9"], [[5]]⟩).1 :=
  ⟨(claim_C7_amended.1 [1] 5 [[2], [3]] ⟨["u1", "u2"], [[4], [6]]⟩ [] (by decide)).2
      (by decide),
   claim_C7_amended.2 ⟨0, [1], Except.ok "r"⟩ ⟨["u9"], [[5]]⟩ (.str "HEALTH_CHECK") {}
      ⟨[], []⟩ rfl⟩

/-- C1: REFUTED. Not every stored record is held encrypted: executeAI places
the session record in the store in plaintext — at a concrete call, the stored
record's payload field is literally the plaintext input, not a
ciphertext/nonce/authTag triple. -/
theorem claim_C1_counterexample :
    (executeAI ⟨5, [1], Except.ok "x"⟩ ⟨["u1"], [[9]]⟩ (.str "secret payload") {}
        ⟨[], []⟩).1.status = "success" ∧
    (getSession (executeAI ⟨5, [1], Except.ok "x"⟩ ⟨["u1"], [[9]]⟩
          (.str "secret payload") {} ⟨[], []⟩).2.1 "u1").map Session.input =
      some "secret payload" := by
  constructor <;> decide

/-- C1 (amended): the encrypted-at-rest invariant holds only for the asset
cache: every record syncAssets adds is the output of a single encrypt call
over the serialized asset (its ciphertext/iv/authTag fields are exactly that
call's triple, stored alongside a timestamp and a hash of the plaintext, with
no plaintext field); executeAI, by contrast, stores its session record in
plaintext (see the counterexample). -/
theorem claim_C1_amended (key : List Nat) (now : Nat) (assets : List (List Nat))
    (sup : Supply) (cache : List (String × AssetEntry)) (i : String) (e : AssetEntry)
    (h : (i, e) ∈ (syncAssets key now assets sup cache).2.1) :
    (i, e) ∈ cache ∨
      ∃ a ∈ assets, ∃ ivd,
        e = { encrypted := (encrypt ivd key a).encrypted, iv := (encrypt ivd key a).iv,
              authTag := (encrypt ivd key a).authTag, timestamp := now,
              originalHash := sha256Digest a } :=
  syncAssetsAux_cache_mem key now assets sup cache i e h

/-- C1 witness: the amended statement instantiated at a concrete one-asset
sync into an empty cache. -/
theorem claim_C1_witness :
    ("u1", ({ encrypted := (encrypt [4] [1] [7]).encrypted,
              iv := (encrypt [4] [1] [7]).iv,
              authTag := (encrypt [4] [1] [7]).authTag, timestamp := 5,
              originalHash := sha256Digest [7] } : AssetEntry)) ∈
        ([] : List (String × AssetEntry)) ∨
      ∃ a ∈ [[7]], ∃ ivd,
        ({ encrypted := (encrypt [4] [1] [7]).encrypted,
           iv := (encrypt [4] [1] [7]).iv,
           authTag := (encrypt [4] [1] [7]).authTag, timestamp := 5,
           originalHash := sha256Digest [7] } : AssetEntry) =
          { encrypted := (encrypt ivd [1] a).encrypted, iv := (encrypt ivd [1] a).iv,
            authTag := (encrypt ivd [1] a).authTag, timestamp := 5,
            originalHash := sha256Digest a } :=
  claim_C1_amended [1] 5 [[7]] ⟨["u1"], [[4]]⟩ [] "u1"
    { encrypted := (encrypt [4] [1] [7]).encrypted, iv := (encrypt [4] [1] [7]).iv,
      authTag := (encrypt [4] [1] [7]).authTag, timestamp := 5,
      originalHash := sha256Digest [7] } (by decide)

end LegendoSync

namespace LegendoSync

/-- C9: CONFIRMED. executeAI is total at its public boundary in the model (the
function always returns a result instead of throwing): for every input value
and options object the result carries the session id and timestamp and has
status either success or error; on the error path an error message and a code
are always present; and invalid input (missing, non-string, or empty) yields
status error with message "Invalid input provided" and the default code
EXECUTION_ERROR. -/
theorem claim_C9_total (env : Env) (sup : Supply) (input : JsVal) (options : Options)
    (st : SyncState) :
    ((executeAI env sup input options st).1.status = "success" ∨
      (executeAI env sup input options st).1.status = "error") ∧
    (executeAI env sup input options st).1.timestamp = env.nowMs ∧
    (executeAI env sup input options st).1.sessionId = (sessionIdDraw options sup).1 ∧
    ((executeAI env sup input options st).1.status = "error" →
      ((executeAI env sup input options st).1.error).isSome ∧
      ((executeAI env sup input options st).1.code).isSome) ∧
    (validInput input = false →
      (executeAI env sup input options st).1.status = "error" ∧
      (executeAI env sup input options st).1.error = some "Invalid input provided" ∧
      (executeAI env sup input options st).1.code = some "EXECUTION_ERROR") := by
  cases hv : validInput input with
  | false =>
    rw [executeAI_invalid env sup input options st hv]
    exact ⟨Or.inr rfl, rfl, rfl, fun _ => ⟨rfl, rfl⟩, fun _ => ⟨rfl, rfl, rfl⟩⟩
  | true =>
    rcases hpc : processCommand env (asString input) options st
        (sessionIdDraw options sup).2 with ⟨res, st1, sup2⟩
    cases res with
    | ok r =>
      rw [executeAI_ok env sup input options st r st1 sup2 hv hpc]
      exact ⟨Or.inl rfl, rfl, rfl, fun hcontra => absurd hcontra (by simp),
        fun hf => absurd hf (by decide)⟩
    | error e =>
      rw [executeAI_err env sup input options st e st1 sup2 hv hpc]
      exact ⟨Or.inr rfl, rfl, rfl, fun _ => ⟨rfl, rfl⟩, fun hf => absurd hf (by decide)⟩

/-- C9 witness: the validation clause at a concrete non-string input. -/
theorem claim_C9_witness :
    (executeAI ⟨3, [1], Except.ok "r"⟩ ⟨["u"], [[2]]⟩ (.num 0) {} ⟨[], []⟩).1.status =
      "error" ∧
    (executeAI ⟨3, [1], Except.ok "r"⟩ ⟨["u"], [[2]]⟩ (.num 0) {} ⟨[], []⟩).1.error =
      some "Invalid input provided" ∧
    (executeAI ⟨3, [1], Except.ok "r"⟩ ⟨["u"], [[2]]⟩ (.num 0) {} ⟨[], []⟩).1.code =
      some "EXECUTION_ERROR" :=
  (claim_C9_total ⟨3, [1], Except.ok "r"⟩ ⟨["u"], [[2]]⟩ (.num 0) {} ⟨[], []⟩).2.2.2.2
    (by decide)

/-- C10: CONFIRMED. Error atomicity of executeAI with respect to the session
store: whenever the returned status is error (failed input validation or a
command that threw), the sessions map of the resulting state is exactly the
sessions map of the initial state — the session record is only written on the
success path, and no command handler touches the sessions map. -/
theorem claim_C10_error_atomic (env : Env) (sup : Supply) (input : JsVal)
    (options : Options) (st : SyncState)
    (h : (executeAI env sup input options st).1.status = "error") :
    (executeAI env sup input options st).2.1.sessions = st.sessions := by
  cases hv : validInput input with
  | false => rw [executeAI_invalid env sup input options st hv]
  | true =>
    rcases hpc : processCommand env (asString input) options st
        (sessionIdDraw options sup).2 with ⟨res, st1, sup2⟩
    cases res with
    | ok r =>
      rw [executeAI_ok env sup input options st r st1 sup2 hv hpc] at h
      exact absurd h (by simp)
    | error e =>
      rw [executeAI_err env sup input options st e st1 sup2 hv hpc]
      have hp := processCommand_sessions env (asString input) options st
        (sessionIdDraw options sup).2
      rw [hpc] at hp
      exact hp

/-- C10 witness: a concrete erroring call (undefined input) leaves a nonempty
session map untouched. -/
theorem claim_C10_witness :
    (executeAI ⟨3, [1], Except.ok "r"⟩ ⟨["u"], [[2]]⟩ JsVal.undef {}
        ⟨[("k", { input := "x", result := .halo, timestamp := 0, options := {} })],
         []⟩).2.1.sessions =
      (⟨[("k", { input := "x", result := .halo, timestamp := 0, options := {} })],
        []⟩ : SyncState).sessions :=
  claim_C10_error_atomic ⟨3, [1], Except.ok "r"⟩ ⟨["u"], [[2]]⟩ JsVal.undef {}
    ⟨[("k", { input := "x", result := .halo, timestamp := 0, options := {} })], []⟩
    (by decide)

end LegendoSync
